import Mathlib

/-!
Verification development for the k8s-agent change-detection pipeline.

The Go sources under `pkg/handler`, `pkg/watcher` and `pkg/client` are
shallowly embedded below: Kubernetes objects are modelled as structured
JSON documents, the handler's mutable package state (object cache) is
threaded explicitly, and environment access is a function argument.
Numeric JSON leaves are restricted to integers, which covers every field
the verified scenarios touch.
-/

namespace K8sAgent

/-- Structured JSON document, the model of a serialized Kubernetes object
(`encoding/json` view of an `Unstructured` value). Objects are ordered
association lists of fields; numbers are integers. -/
inductive Json where
  | null : Json
  | bool (b : Bool) : Json
  | num (n : Int) : Json
  | str (s : String) : Json
  | arr (elems : List Json) : Json
  | obj (fields : List (String × Json)) : Json

/-- Models Go `strings.HasPrefix s pre` (also the semantics of
`String.startsWith`), written as structural recursion over the character
lists so that concrete instances reduce in the kernel. -/
def strHasPre (s pre : String) : Bool :=
  pre.data.isPrefixOf s.data

/-- Auxiliary splitter: splits a character list at every occurrence of `c`. -/
def splitCharAux (c : Char) : List Char → List Char → List (List Char)
  | [], cur => [cur.reverse]
  | x :: xs, cur =>
    if x = c then cur.reverse :: splitCharAux c xs []
    else splitCharAux c xs (x :: cur)

/-- Splits a string on a single-character separator; models Go
`strings.Split s (String.singleton c)` (and gjson's dot-splitting of
paths). The empty string splits to `[""]`, as in Go. -/
def splitChar (s : String) (c : Char) : List String :=
  (splitCharAux c s.data []).map (fun l => String.mk l)

/-- Models Go `strings.TrimPrefix s pre` for the one-character prefix "/"
used by the handler. -/
def trimSlash (s : String) : String :=
  if strHasPre s "/" then String.mk (s.data.drop 1) else s

/-- Models Go `strings.ReplaceAll s "/" "."` (single-character pattern and
replacement, hence a character map). -/
def slashesToDots (s : String) : String :=
  String.mk (s.data.map (fun ch => if ch = '/' then '.' else ch))

/-- Decimal digit reader used for gjson array indexing: `some n` exactly
when the character list is a nonempty string of digits. -/
def digitsToNat : List Char → Option Nat
  | [] => none
  | cs => digitsToNatAux cs 0
where
  /-- accumulator loop over the digits -/
  digitsToNatAux : List Char → Nat → Option Nat
    | [], acc => some acc
    | c :: cs, acc =>
      if c.isDigit then digitsToNatAux cs (acc * 10 + (c.toNat - 48))
      else none

/-- First binding of a key in an association list of JSON object fields;
models Go map indexing of an unmarshalled JSON object. -/
def lookupField : List (String × Json) → String → Option Json
  | [], _ => none
  | (k, v) :: rest, key => if k = key then some v else lookupField rest key

/-- One navigation step of a gjson path: object fields are addressed by
name, array elements by a decimal index segment. -/
def gjsonStep (doc : Json) (seg : String) : Option Json :=
  match doc with
  | Json.obj fields => lookupField fields seg
  | Json.arr elems =>
    match digitsToNat seg.data with
    | some i => elems.get? i
    | none => none
  | _ => none

/-- Resolves a list of gjson path segments against a document; `none`
models a gjson `Result` of type `Null` obtained from a missing path. -/
def gjsonResolve : Json → List String → Option Json
  | doc, [] => some doc
  | doc, seg :: rest =>
    match gjsonStep doc seg with
    | some sub => gjsonResolve sub rest
    | none => none

/-- Models `gjson.GetBytes doc path` for the dot-separated paths the
handler constructs: `none` stands for a result of type `gjson.Null`
coming from an absent path, `some Json.null` for an explicit JSON null. -/
def gjsonGet (doc : Json) (path : String) : Option Json :=
  gjsonResolve doc (splitChar path '.')

/-- Models `gjson.Result.Value()`: an absent result yields Go `nil`,
i.e. JSON null. -/
def gjsonValue (r : Option Json) : Json :=
  r.getD Json.null

/-- Models the test `result.Type != gjson.Null` (false for both an absent
path and an explicit JSON null). -/
def gjsonIsNull (r : Option Json) : Bool :=
  match r with
  | none => true
  | some Json.null => true
  | some _ => false

/-- Boolean equality of JSON documents (deep structural comparison of the
unmarshalled values, as the jsondiff library performs it). -/
def Json.beq : Json → Json → Bool
  | Json.null, Json.null => true
  | Json.bool a, Json.bool b => a == b
  | Json.num a, Json.num b => a == b
  | Json.str a, Json.str b => a == b
  | Json.arr xs, Json.arr ys => beqList xs ys
  | Json.obj xs, Json.obj ys => beqFields xs ys
  | _, _ => false
where
  /-- elementwise comparison of arrays -/
  beqList : List Json → List Json → Bool
    | [], [] => true
    | x :: xs, y :: ys => Json.beq x y && beqList xs ys
    | _, _ => false
  /-- fieldwise comparison of objects -/
  beqFields : List (String × Json) → List (String × Json) → Bool
    | [], [] => true
    | (k, v) :: xs, (l, w) :: ys => k == l && Json.beq v w && beqFields xs ys
    | _, _ => false

/-- Models `jsondiff.Operation` (fields `Type`, `Path`, `Value`,
`OldValue`): one JSON-Patch edit operation; `oldValue = none` models a Go
nil `OldValue` interface. -/
structure Operation where
  type : String
  path : String
  value : Json
  oldValue : Option Json

/-- Models `filterPatch` from `pkg/handler/handler.go`: removes the
operations whose path starts with the string "/metadata" or "/status",
keeping the rest in order. -/
def filterPatch (patch : List Operation) : List Operation :=
  patch.filter
    (fun op => !(strHasPre op.path "/metadata") && !(strHasPre op.path "/status"))

/-- Models the handler's path conversion
`strings.ReplaceAll (strings.TrimPrefix op.Path "/") "/" "."` feeding
gjson. -/
def pathToGjson (p : String) : String :=
  slashesToDots (trimSlash p)

/-- JSON-Pointer escaping of an object key (RFC 6901: "~" becomes "~0"
and "/" becomes "~1"), as performed by the jsondiff library when it
builds operation paths. -/
def escapeKey (k : String) : String :=
  String.mk (k.data.flatMap (fun ch =>
    if ch = '~' then ['~', '0'] else if ch = '/' then ['~', '1'] else [ch]))

/-- Remove operations for the object fields of the prior document whose
key is absent from the incoming document. -/
def removedOps (path : String) (fa fb : List (String × Json)) : List Operation :=
  (fa.filter (fun kv => (lookupField fb kv.1).isNone)).map
    (fun kv => ⟨"remove", path ++ "/" ++ escapeKey kv.1, Json.null, some kv.2⟩)

/-- Modelled from the spec: the structured-document diff primitive
(`jsondiff.Compare`, an external collaborator of the repository) per
§4.4 step 2 — the edit operations (add/remove/replace, each carrying a
path and, for a replace, the value previously at that path) transforming
the prior document into the incoming one. Objects are diffed fieldwise;
any other differing value (including an array) is replaced wholesale —
the verified scenarios involve no array-element diffs, so the library's
positionally-shifted adds inside arrays are not produced by this model
(general theorems below quantify over arbitrary operation lists
instead). -/
def diffAt : String → Json → Json → List Operation
  | path, Json.obj fa, Json.obj fb => removedOps path fa fb ++ diffFields path fa fb
  | path, a, b => if Json.beq a b then [] else [⟨"replace", path, b, some a⟩]
where
  /-- add or recursively diff each field of the incoming object -/
  diffFields : String → List (String × Json) → List (String × Json) → List Operation
    | _, _, [] => []
    | path, fa, (k, vb) :: rest =>
      (match lookupField fa k with
       | none => [⟨"add", path ++ "/" ++ escapeKey k, vb, none⟩]
       | some va => diffAt (path ++ "/" ++ escapeKey k) va vb)
      ++ diffFields path fa rest

/-- Modelled from the spec: `jsondiff.Compare prior incoming` — the full
patch, rooted at the empty pointer. -/
def jsondiffCompare (oldDoc newDoc : Json) : List Operation :=
  diffAt "" oldDoc newDoc

/-- The field-level change set: a path to (old value, new value) mapping,
modelling the Go `map[string]interface NN` keyed by operation path (kept
as an association list with overwrite-on-collision, mirroring map
assignment). -/
abbrev Changes := List (String × Json × Json)

/-- Models `changes[op.Path] = ...`: overwrite the existing binding for
the path, or append a new one. -/
def insertChange (acc : Changes) (p : String) (ov nv : Json) : Changes :=
  if acc.any (fun e => e.1 = p) then
    acc.map (fun e => if e.1 = p then (p, ov, nv) else e)
  else acc ++ [(p, ov, nv)]

/-- Models the accumulation loop of `diffAndLog`: for each surviving
operation of type "replace", or "add" with a recorded previous value,
resolve the path against both serialized documents and record the pair —
unless the resolved old value is of gjson type Null. -/
def diffChangesLoop (oldDoc newDoc : Json) : List Operation → Changes → Changes
  | [], acc => acc
  | op :: rest, acc =>
    if op.type == "replace" || (op.type == "add" && op.oldValue.isSome) then
      let oldValue := gjsonGet oldDoc (pathToGjson op.path)
      let newValue := gjsonGet newDoc (pathToGjson op.path)
      if gjsonIsNull oldValue then diffChangesLoop oldDoc newDoc rest acc
      else
        diffChangesLoop oldDoc newDoc rest
          (insertChange acc op.path (gjsonValue oldValue) (gjsonValue newValue))
    else diffChangesLoop oldDoc newDoc rest acc

/-- Models `diffAndLog` from `pkg/handler/handler.go` on the document
level: `none` models a nil return (error paths cannot arise for
well-formed documents, and an empty filtered patch logs a baseline and
returns nil); `some cs` models returning the accumulated changes map —
note the Go function returns the map even when it is empty, which is the
`some []` case here. -/
def diffAndLog (oldObj newObj : Json) : Option Changes :=
  let patch := jsondiffCompare oldObj newObj
  let filteredPatch := filterPatch patch
  if filteredPatch.isEmpty then none
  else some (diffChangesLoop oldObj newObj filteredPatch [])

/-- Modelled from the spec: the Object State Cache of `pkg/cache` (absent
from the provided sources) per §4.3 — Get, Set (unconditional replace)
and Delete on a keyed store of snapshots, here a map from keys to
optional documents. -/
def ObjectCache := String → Option Json

/-- empty cache: every key is absent -/
def cacheEmpty : ObjectCache := fun _ => none

/-- Modelled from the spec: `Get(key) -> (Snapshot, found)`. -/
def cacheGet (c : ObjectCache) (k : String) : Option Json := c k

/-- Modelled from the spec: `Set(key, Snapshot)`, unconditional replace. -/
def cacheSet (c : ObjectCache) (k : String) (v : Json) : ObjectCache :=
  fun q => if q = k then some v else c q

/-- Modelled from the spec: `Delete(key)`. -/
def cacheDelete (c : ObjectCache) (k : String) : ObjectCache :=
  fun q => if q = k then none else c q

/-- Models `watch.EventType` from `k8s.io/apimachinery/pkg/watch`. The Go
values are strings ("ADDED", "MODIFIED", "DELETED", "BOOKMARK", "ERROR");
the conversion is injective on these constants, so the embedding keeps
the enumeration itself where the handler stores `string(event.Type)`. -/
inductive WatchEventType where
  | added : WatchEventType
  | modified : WatchEventType
  | deleted : WatchEventType
  | bookmark : WatchEventType
  | error : WatchEventType
deriving DecidableEq

/-- Models `watch.Event`: an event type together with the observed object,
already in its structured (Unstructured/JSON) form. -/
structure WatchEvent where
  type : WatchEventType
  object : Json

/-- Models the `EventMessage` protobuf assembled by `HandleEvent`; `Data`
holds the change set whose JSON serialization the Go code marshals into
the bytes field. -/
structure EventMessage where
  Namespace : String
  ResourceKey : String
  EventType : WatchEventType
  Data : Changes
  ApiKey : String

/-- Models the process environment seen by `os.Getenv` (an unset variable
reads as the empty string). -/
def Env := String → String

/-- Models the package-level configuration of `pkg/handler`, read from the
environment once when the process starts (Go package variable
initialization). -/
structure HandlerConfig where
  apiKey : String
  debugEnabled : Bool
  externalSendEnabled : Bool

/-- Startup-time evaluation of the `pkg/handler` package variables
`apiKey`, `debugEnabled` and `externalSendEnabled` against the
environment in place at process start. -/
def handlerConfigOf (env : Env) : HandlerConfig :=
  { apiKey := env "API_KEY"
    debugEnabled := env "DEBUG_ENABLED" == "true"
    externalSendEnabled := env "EXTERNAL_SEND_ENABLED" != "false" }

/-- Models `meta.Accessor(obj).GetNamespace()` / `GetName()` on an
unstructured object: the named string field of the `metadata` object,
or the empty string when absent. -/
def metaString (obj : Json) (field : String) : String :=
  match obj with
  | Json.obj fields =>
    match lookupField fields "metadata" with
    | some (Json.obj m) =>
      match lookupField m field with
      | some (Json.str s) => s
      | _ => ""
    | _ => ""
  | _ => ""

/-- Models the key construction of `HandleEvent`:
`[namespace/]resource/name`. -/
def cacheKey (gvrResource : String) (obj : Json) : String :=
  let ns := metaString obj "namespace"
  let resourcePath := if ns == "" then gvrResource else ns ++ "/" ++ gvrResource
  resourcePath ++ "/" ++ metaString obj "name"

/-- Models `HandleEvent` from `pkg/handler/handler.go`. The mutable
package cache is threaded explicitly; the returned option is the
`EventMessage` assembled when `changes != nil` (what would be handed to
the dispatch path). Object values are immutable here, so
`DeepCopyObject` is the identity. Serialization of well-formed documents
cannot fail, so the error-return branches around `json.Marshal` do not
arise. -/
def HandleEvent (cfg : HandlerConfig) (cache : ObjectCache) (event : WatchEvent)
    (gvrResource : String) : ObjectCache × Option EventMessage :=
  let obj := event.object
  let key := cacheKey gvrResource obj
  match event.type with
  | WatchEventType.added => (cacheSet cache key obj, none)
  | WatchEventType.modified =>
    match cacheGet cache key with
    | some oldObj =>
      let changes := diffAndLog oldObj obj
      let newCache := cacheSet cache key obj
      match changes with
      | some cs =>
        (newCache,
         some { Namespace := metaString obj "namespace"
                ResourceKey := metaString obj "name"
                EventType := event.type
                Data := cs
                ApiKey := cfg.apiKey })
      | none => (newCache, none)
    | none => (cache, none)
  | WatchEventType.deleted => (cacheDelete cache key, none)
  | _ => (cache, none)

/-- Models the gRPC client connection produced by
`NewEventServiceClient`: the dial target and whether transport security
was selected. -/
structure GrpcConn where
  target : String
  useTLS : Bool

/-- Models `NewEventServiceClient` from `pkg/client`: it reads
`DESTINATION_URL` and `USE_TLS` from the environment in place at the
moment of the call, not from any startup-time copy. -/
def NewEventServiceClient (env : Env) : GrpcConn :=
  { target := env "DESTINATION_URL", useTLS := env "USE_TLS" == "true" }

/-- One dispatch as observed at the external boundary: the connection
parameters used and the message sent. -/
structure DispatchRecord where
  target : String
  useTLS : Bool
  message : EventMessage

/-- The dispatch path of `HandleEvent`: when a change set was produced
and `externalSendEnabled` holds, a client is created against the
environment current at dispatch time (`currentEnv`) and the message is
sent over it; the handler configuration itself was read from the
startup-time environment (`startupEnv`). -/
def dispatchOf (startupEnv currentEnv : Env) (cache : ObjectCache)
    (event : WatchEvent) (gvrResource : String) : Option DispatchRecord :=
  let cfg := handlerConfigOf startupEnv
  match HandleEvent cfg cache event gvrResource with
  | (_, some msg) =>
    if cfg.externalSendEnabled then
      let conn := NewEventServiceClient currentEnv
      some { target := conn.target, useTLS := conn.useTLS, message := msg }
    else none
  | (_, none) => none

/-- Models `metav1.APIResource` (only the field the watcher reads). -/
structure APIResource where
  name : String

/-- Models `metav1.APIResourceList`: a group/version string and its
resources. -/
structure APIResourceList where
  groupVersion : String
  apiResources : List APIResource

/-- Models `schema.GroupVersion`. -/
structure GroupVersion where
  group : String
  version : String
deriving DecidableEq

/-- Models `schema.GroupVersionResource`. -/
structure GroupVersionResource where
  group : String
  version : String
  resource : String
deriving DecidableEq

/-- Models `schema.ParseGroupVersion` from `k8s.io/apimachinery`: empty or
"/" parses to the empty GroupVersion; no slash means a bare version; one
slash splits group from version; more slashes fail. `none` models the
error return. -/
def ParseGroupVersion (gv : String) : Option GroupVersion :=
  if gv == "" || gv == "/" then some ⟨"", ""⟩
  else
    match splitChar gv '/' with
    | [v] => some ⟨"", v⟩
    | [g, v] => some ⟨g, v⟩
    | _ => none

/-- Models `schema.GroupVersion.WithResource`. -/
def GroupVersion.withResource (gv : GroupVersion) (resource : String) :
    GroupVersionResource :=
  ⟨gv.group, gv.version, resource⟩

/-- The fixed allow-list `wantedResources` of
`pkg/watcher/watcher.go` (the Go map's key set). -/
def wantedResources : List String :=
  ["pods", "deployments", "statefulsets", "daemonsets", "jobs", "cronjobs",
   "services", "ingresses", "networkpolicies", "configmaps", "secrets",
   "persistentvolumeclaims", "roles", "rolebindings", "clusterroles",
   "clusterrolebindings"]

/-- Models `filterWatchableResources` from `pkg/watcher/watcher.go`: for
each discovered group, parse its group/version (logging and skipping the
group on error) and keep every resource whose name is in the allow-list,
appending in iteration order. -/
def filterWatchableResources (apiResourceList : List APIResourceList) :
    List GroupVersionResource :=
  apiResourceList.foldl
    (fun acc grp =>
      match ParseGroupVersion grp.groupVersion with
      | none => acc
      | some gv =>
        grp.apiResources.foldl
          (fun inner r =>
            if wantedResources.contains r.name then inner ++ [gv.withResource r.name]
            else inner)
          acc)
    []

/-- The first segment of a slash-delimited pointer path, in the spec's
sense: the name between the leading slash and the following one. Used
only to state spec-level properties, never by the embedded code. -/
def firstSegment (p : String) : String :=
  ((splitChar p '/').drop 1).headD ""

/-- Concrete pod document with one replica, the baseline of the
verified scenarios. -/
def podX : Json :=
  Json.obj
    [("metadata", Json.obj [("name", Json.str "x"), ("namespace", Json.str "default")]),
     ("spec", Json.obj [("replicas", Json.num 1)])]

/-- podX with `spec.replicas` changed to 3 and everything else equal. -/
def podXr3 : Json :=
  Json.obj
    [("metadata", Json.obj [("name", Json.str "x"), ("namespace", Json.str "default")]),
     ("spec", Json.obj [("replicas", Json.num 3)])]

/-- Startup-time environment of the concrete scenarios: an API key and a
hub address, debug off, external send on (its default). -/
def envA : Env := fun k =>
  if k == "API_KEY" then "secret"
  else if k == "DESTINATION_URL" then "hub-a"
  else ""

/-- envA after a post-startup environment change redirecting the hub
address. -/
def envB : Env := fun k =>
  if k == "DESTINATION_URL" then "hub-b" else envA k

/-- Cache state after the baseline Added notification for podX. -/
def cacheWithX : ObjectCache :=
  cacheSet cacheEmpty (cacheKey "pods" podX) podX

/-- Modified notification carrying podXr3. -/
def evModX3 : WatchEvent :=
  ⟨WatchEventType.modified, podXr3⟩

/-- Prior document whose `spec.foo` field is present. -/
def specFooOld : Json :=
  Json.obj
    [("metadata", Json.obj [("name", Json.str "x"), ("namespace", Json.str "default")]),
     ("spec", Json.obj [("foo", Json.num 1), ("bar", Json.num 2)])]

/-- Incoming document identical to specFooOld except that `spec.foo` was
removed: the diff is a single surviving remove operation, which the
change-accumulation loop ignores, leaving the mapping empty. -/
def specFooNew : Json :=
  Json.obj
    [("metadata", Json.obj [("name", Json.str "x"), ("namespace", Json.str "default")]),
     ("spec", Json.obj [("bar", Json.num 2)])]

/-- Cache state holding specFooOld under its key. -/
def cacheWithFoo : ObjectCache :=
  cacheSet cacheEmpty (cacheKey "pods" specFooOld) specFooOld

/-- Invariant of the change-accumulation loop: an entry records a non-null
old value resolved against the prior document, and originates from an
operation of the allowed kinds among `ops`. -/
def GoodChange (oldDoc : Json) (ops : List Operation) (e : String × Json × Json) : Prop :=
  (∃ v, gjsonGet oldDoc (pathToGjson e.1) = some v ∧ v ≠ Json.null ∧ e.2.1 = v) ∧
  ∃ op ∈ ops, op.path = e.1 ∧
    (op.type = "replace" ∨ (op.type = "add" ∧ op.oldValue.isSome = true))

/-- The dispatch record produced in the redirected-environment run of the
concrete scenario (startup envA, dispatch-time envB). -/
def c3rec : DispatchRecord :=
  { target := "hub-b", useTLS := false,
    message := { Namespace := "default", ResourceKey := "x",
                 EventType := WatchEventType.modified,
                 Data := [("/spec/replicas", Json.num 1, Json.num 3)],
                 ApiKey := "secret" } }

/-- C1 (code bug): a Modified notification whose filtered diff survives to
step 5 (one remove operation) but whose accumulated mapping is empty does
NOT report "no change": `diffAndLog` returns an empty non-nil map (Go
distinguishes nil from an empty map), so `HandleEvent` assembles an
EventMessage with an empty change set and hands it to the dispatch path,
contradicting the spec's step 6 and the function's own documentation that
it returns nil when there are no relevant changes. -/
theorem emptyMappingStillDispatched :
    (filterPatch (jsondiffCompare specFooOld specFooNew)).length = 1 ∧
    diffAndLog specFooOld specFooNew = some [] ∧
    (HandleEvent (handlerConfigOf envA) cacheWithFoo
        ⟨WatchEventType.modified, specFooNew⟩ "pods").2 =
      some { Namespace := "default", ResourceKey := "x",
             EventType := WatchEventType.modified, Data := [], ApiKey := "secret" } ∧
    (dispatchOf envA envA cacheWithFoo
        ⟨WatchEventType.modified, specFooNew⟩ "pods").isSome = true :=
  ⟨rfl, rfl, rfl, rfl⟩

/-- C2 counterexample: the operation with path "/statusx" has first
segment "statusx", which is neither `metadata` nor `status`, yet
`filterPatch` drops it, because the Go code tests the string prefixes
"/metadata" and "/status" rather than whole first segments. -/
theorem filterPatchDropsForeignFirstSegment :
    firstSegment "/statusx" = "statusx" ∧
    firstSegment "/statusx" ≠ "metadata" ∧
    firstSegment "/statusx" ≠ "status" ∧
    filterPatch [⟨"replace", "/statusx", Json.num 1, some (Json.num 0)⟩] = [] :=
  ⟨rfl, by decide, by decide, rfl⟩

/-- C2 (amended): `filterPatch` removes exactly the operations whose path
starts with the string "/metadata" or "/status" (hence also paths whose
first segment merely begins with one of those names, such as
"/statusx"), and retains every other operation, in order (the result is
a sublist of the input). -/
theorem filterPatchExactStringPrefixes (patch : List Operation) :
    List.Sublist (filterPatch patch) patch ∧
    ∀ op, op ∈ filterPatch patch ↔
      (op ∈ patch ∧ strHasPre op.path "/metadata" = false ∧
        strHasPre op.path "/status" = false) := by
  refine ⟨List.filter_sublist patch, fun op => ?_⟩
  simp [filterPatch, List.mem_filter]

/-- C8: after an Added notification establishing podX (one replica) as
the baseline, a Modified notification carrying podXr3 (three replicas,
all else equal) produces exactly the change set mapping "/spec/replicas"
to old value 1 and new value 3, and a record with the Modified event
type is handed to the dispatcher. -/
theorem scenario3AddedThenModifiedDispatch :
    (HandleEvent (handlerConfigOf envA) cacheEmpty
        ⟨WatchEventType.added, podX⟩ "pods").2 = none ∧
    dispatchOf envA envA
        (HandleEvent (handlerConfigOf envA) cacheEmpty
          ⟨WatchEventType.added, podX⟩ "pods").1
        evModX3 "pods" =
      some { target := "hub-a", useTLS := false,
             message := { Namespace := "default", ResourceKey := "x",
                          EventType := WatchEventType.modified,
                          Data := [("/spec/replicas", Json.num 1, Json.num 3)],
                          ApiKey := "secret" } } :=
  ⟨rfl, rfl⟩

/-- C3 counterexample: two runs whose startup environments are identical
(envA) but whose environments at dispatch time differ only in a change
made after startup (envB redirects DESTINATION_URL) do not dispatch
identically: the dispatch uses the current, not the startup, destination
address, because `NewEventServiceClient` reads the environment at every
call. -/
theorem dispatchTargetTracksCurrentEnvironment :
    (dispatchOf envA envA cacheWithX evModX3 "pods").map DispatchRecord.target =
      some "hub-a" ∧
    (dispatchOf envA envB cacheWithX evModX3 "pods").map DispatchRecord.target =
      some "hub-b" ∧
    envB "DESTINATION_URL" ≠ envA "DESTINATION_URL" :=
  ⟨rfl, rfl, by decide⟩

/-- Helper: every EventMessage assembled by `HandleEvent` carries the
configured (startup-time) API key. -/
theorem handleEventMessageApiKey (cfg : HandlerConfig) (cache : ObjectCache)
    (event : WatchEvent) (gvrResource : String) (msg : EventMessage)
    (h : (HandleEvent cfg cache event gvrResource).2 = some msg) :
    msg.ApiKey = cfg.apiKey := by
  unfold HandleEvent at h
  cases hev : event.type <;> rw [hev] at h <;> simp at h
  case modified =>
    rcases hc : cacheGet cache (cacheKey gvrResource event.object) with _ | oldObj <;>
      rw [hc] at h <;> simp at h
    rcases hd : diffAndLog oldObj event.object with _ | cs <;> rw [hd] at h <;> simp at h
    rw [← h]

/-- C3 (amended): for every dispatched record, the API key is the
startup-time environment's API_KEY (read once into the handler package
configuration), while the destination address and TLS mode are read from
the environment current at dispatch time, so environment changes made
after startup do alter where and how records are sent. -/
theorem dispatchUsesStartupKeyCurrentAddress
    (startupEnv currentEnv : Env) (cache : ObjectCache) (event : WatchEvent)
    (gvrResource : String) (rec : DispatchRecord)
    (h : dispatchOf startupEnv currentEnv cache event gvrResource = some rec) :
    rec.message.ApiKey = startupEnv "API_KEY" ∧
    rec.target = currentEnv "DESTINATION_URL" ∧
    rec.useTLS = (currentEnv "USE_TLS" == "true") := by
  simp only [dispatchOf] at h
  rcases hE : HandleEvent (handlerConfigOf startupEnv) cache event gvrResource with ⟨c, msgOpt⟩
  rw [hE] at h
  cases msgOpt with
  | none => simp at h
  | some msg =>
    simp only at h
    split at h
    · rw [Option.some_inj] at h
      subst h
      refine ⟨?_, rfl, rfl⟩
      have hmsg : (HandleEvent (handlerConfigOf startupEnv) cache event gvrResource).2 =
          some msg := by
        rw [hE]
      exact handleEventMessageApiKey _ _ _ _ _ hmsg
    · exact absurd h (by simp)

/-- Witness for C3 (amended) at the concrete redirected-environment
scenario: the record dispatched there carries the startup API key but the
current (post-change) destination and TLS selection. -/
theorem dispatchUsesStartupKeyCurrentAddress_witness :
    c3rec.message.ApiKey = envA "API_KEY" ∧
    c3rec.target = envB "DESTINATION_URL" ∧
    c3rec.useTLS = (envB "USE_TLS" == "true") :=
  dispatchUsesStartupKeyCurrentAddress envA envB cacheWithX evModX3 "pods" c3rec rfl

/-- C4: a Modified notification whose key has no prior Snapshot leaves
the cache unchanged (the key is still absent afterwards) and assembles
no EventMessage. -/
theorem modifiedWithoutSnapshotIsNoop (cfg : HandlerConfig) (cache : ObjectCache)
    (event : WatchEvent) (gvrResource : String)
    (hm : event.type = WatchEventType.modified)
    (habs : cacheGet cache (cacheKey gvrResource event.object) = none) :
    HandleEvent cfg cache event gvrResource = (cache, none) ∧
    cacheGet (HandleEvent cfg cache event gvrResource).1
      (cacheKey gvrResource event.object) = none := by
  have h1 : HandleEvent cfg cache event gvrResource = (cache, none) := by
    simp [HandleEvent, hm, habs]
  exact ⟨h1, by rw [h1]; exact habs⟩

/-- Witness for C4: a Modified notification for podX against the empty
cache. -/
theorem modifiedWithoutSnapshotIsNoop_witness :
    HandleEvent (handlerConfigOf envA) cacheEmpty ⟨WatchEventType.modified, podX⟩ "pods" =
      (cacheEmpty, none) ∧
    cacheGet
      (HandleEvent (handlerConfigOf envA) cacheEmpty ⟨WatchEventType.modified, podX⟩ "pods").1
      (cacheKey "pods" podX) = none :=
  modifiedWithoutSnapshotIsNoop (handlerConfigOf envA) cacheEmpty
    ⟨WatchEventType.modified, podX⟩ "pods" rfl rfl

/-- C5: a Modified notification whose key has a prior Snapshot always
stores the incoming object under that key, whatever `diffAndLog`
returned (non-empty change set, empty change set, or nil). -/
theorem modifiedWithSnapshotStoresIncoming (cfg : HandlerConfig) (cache : ObjectCache)
    (event : WatchEvent) (gvrResource : String) (oldObj : Json)
    (hm : event.type = WatchEventType.modified)
    (hprev : cacheGet cache (cacheKey gvrResource event.object) = some oldObj) :
    (HandleEvent cfg cache event gvrResource).1 =
      cacheSet cache (cacheKey gvrResource event.object) event.object ∧
    cacheGet (HandleEvent cfg cache event gvrResource).1
      (cacheKey gvrResource event.object) = some event.object := by
  have h1 : (HandleEvent cfg cache event gvrResource).1 =
      cacheSet cache (cacheKey gvrResource event.object) event.object := by
    simp only [HandleEvent, hm, hprev]
    cases diffAndLog oldObj event.object <;> rfl
  refine ⟨h1, ?_⟩
  rw [h1]
  simp [cacheGet, cacheSet]

/-- Witness for C5 at the concrete scenario: after the Modified(podXr3)
notification the cache holds podXr3. -/
theorem modifiedWithSnapshotStoresIncoming_witness :
    (HandleEvent (handlerConfigOf envA) cacheWithX evModX3 "pods").1 =
      cacheSet cacheWithX (cacheKey "pods" podXr3) podXr3 ∧
    cacheGet (HandleEvent (handlerConfigOf envA) cacheWithX evModX3 "pods").1
      (cacheKey "pods" podXr3) = some podXr3 :=
  modifiedWithSnapshotStoresIncoming (handlerConfigOf envA) cacheWithX evModX3 "pods" podX
    rfl rfl

/-- C6: Added and Deleted notifications never produce an EventMessage;
Added only stores the object under its key and Deleted only removes the
entry. -/
theorem addedDeletedNeverDispatch (cfg : HandlerConfig) (cache : ObjectCache)
    (event : WatchEvent) (gvrResource : String)
    (h : event.type = WatchEventType.added ∨ event.type = WatchEventType.deleted) :
    (HandleEvent cfg cache event gvrResource).2 = none ∧
    (event.type = WatchEventType.added →
      (HandleEvent cfg cache event gvrResource).1 =
        cacheSet cache (cacheKey gvrResource event.object) event.object) ∧
    (event.type = WatchEventType.deleted →
      (HandleEvent cfg cache event gvrResource).1 =
        cacheDelete cache (cacheKey gvrResource event.object)) := by
  rcases h with h | h <;> simp [HandleEvent, h]

/-- Witness for C6: the Added(podX) notification on the empty cache. -/
theorem addedDeletedNeverDispatch_witness :
    (HandleEvent (handlerConfigOf envA) cacheEmpty ⟨WatchEventType.added, podX⟩ "pods").2 =
      none ∧
    (WatchEventType.added = WatchEventType.added →
      (HandleEvent (handlerConfigOf envA) cacheEmpty ⟨WatchEventType.added, podX⟩ "pods").1 =
        cacheSet cacheEmpty (cacheKey "pods" podX) podX) ∧
    (WatchEventType.added = WatchEventType.deleted →
      (HandleEvent (handlerConfigOf envA) cacheEmpty ⟨WatchEventType.added, podX⟩ "pods").1 =
        cacheDelete cacheEmpty (cacheKey "pods" podX)) :=
  addedDeletedNeverDispatch (handlerConfigOf envA) cacheEmpty
    ⟨WatchEventType.added, podX⟩ "pods" (Or.inl rfl)

/-- C10: a notification whose event type is none of Added, Modified or
Deleted (Bookmark, Error) is a no-op: the cache is returned unchanged and
no EventMessage is assembled. -/
theorem otherEventTypesAreNoop (cfg : HandlerConfig) (cache : ObjectCache)
    (event : WatchEvent) (gvrResource : String)
    (h1 : event.type ≠ WatchEventType.added)
    (h2 : event.type ≠ WatchEventType.modified)
    (h3 : event.type ≠ WatchEventType.deleted) :
    HandleEvent cfg cache event gvrResource = (cache, none) := by
  cases hev : event.type <;> simp_all [HandleEvent]

/-- Witness for C10: a Bookmark notification carrying a well-formed
object, against a non-empty cache. -/
theorem otherEventTypesAreNoop_witness :
    HandleEvent (handlerConfigOf envA) cacheWithX ⟨WatchEventType.bookmark, podX⟩ "pods" =
      (cacheWithX, none) :=
  otherEventTypesAreNoop (handlerConfigOf envA) cacheWithX
    ⟨WatchEventType.bookmark, podX⟩ "pods" (by decide) (by decide) (by decide)

/-- Helper: a gjson result that is not of type Null is a present,
non-null value, and `Value()` returns it. -/
theorem gjsonIsNull_false_elim (r : Option Json) (h : gjsonIsNull r = false) :
    ∃ v, r = some v ∧ v ≠ Json.null ∧ gjsonValue r = v := by
  rcases r with _ | v
  · simp [gjsonIsNull] at h
  · refine ⟨v, rfl, ?_, rfl⟩
    intro hv
    subst hv
    simp [gjsonIsNull] at h

/-- Helper: map-style insertion preserves a pointwise property when the
inserted entry has it. -/
theorem insertChange_forall (P : String × Json × Json → Prop) (acc : Changes)
    (p : String) (ov nv : Json)
    (hacc : ∀ e ∈ acc, P e) (hnew : P (p, ov, nv)) :
    ∀ e ∈ insertChange acc p ov nv, P e := by
  intro e he
  unfold insertChange at he
  split at he
  · rcases List.mem_map.mp he with ⟨e0, he0, rfl⟩
    by_cases h0 : e0.1 = p
    · rw [if_pos h0]
      exact hnew
    · rw [if_neg h0]
      exact hacc e0 he0
  · rcases List.mem_append.mp he with h | h
    · exact hacc e h
    · rw [List.mem_singleton.mp h]
      exact hnew

/-- Helper: every entry produced by the change-accumulation loop over a
sublist of `allOps` satisfies the GoodChange invariant. -/
theorem diffChangesLoop_invariant (oldDoc newDoc : Json) (allOps : List Operation) :
    ∀ ops : List Operation, (∀ op ∈ ops, op ∈ allOps) →
      ∀ acc : Changes, (∀ e ∈ acc, GoodChange oldDoc allOps e) →
        ∀ e ∈ diffChangesLoop oldDoc newDoc ops acc, GoodChange oldDoc allOps e := by
  intro ops
  induction ops with
  | nil =>
    intro _ acc hacc e he
    simp only [diffChangesLoop] at he
    exact hacc e he
  | cons op rest ih =>
    intro hsub acc hacc
    have hsubRest : ∀ q ∈ rest, q ∈ allOps := fun q hq => hsub q (List.mem_cons_of_mem _ hq)
    intro e he
    simp only [diffChangesLoop] at he
    split at he
    case isTrue hcond =>
      split at he
      case isTrue hnull => exact ih hsubRest acc hacc e he
      case isFalse hnull =>
        refine ih hsubRest _ ?_ e he
        apply insertChange_forall _ _ _ _ _ hacc
        rcases gjsonIsNull_false_elim _ (by simpa using hnull) with ⟨v, hg, hvne, hval⟩
        constructor
        · exact ⟨v, hg, hvne, hval⟩
        · refine ⟨op, hsub op (List.mem_cons_self _ _), rfl, ?_⟩
          simpa using hcond
    case isFalse hcond => exact ih hsubRest acc hacc e he

/-- C7: every entry of a change set returned by the diff engine has a
non-null, present old value resolved against the prior document (its
recorded old value is exactly that resolved value), and stems from a
surviving operation that is a replace, or an add carrying a recorded
previous value. -/
theorem changeSetEntriesHaveNonNullOld (oldDoc newDoc : Json) (cs : Changes)
    (h : diffAndLog oldDoc newDoc = some cs) :
    ∀ e ∈ cs,
      (∃ v, gjsonGet oldDoc (pathToGjson e.1) = some v ∧ v ≠ Json.null ∧ e.2.1 = v) ∧
      ∃ op ∈ filterPatch (jsondiffCompare oldDoc newDoc),
        op.path = e.1 ∧
        (op.type = "replace" ∨ (op.type = "add" ∧ op.oldValue.isSome = true)) := by
  intro e he
  have hcs : cs = diffChangesLoop oldDoc newDoc (filterPatch (jsondiffCompare oldDoc newDoc)) [] := by
    simp only [diffAndLog] at h
    split at h
    · exact absurd h (by simp)
    · exact (Option.some_inj.mp h).symm
  rw [hcs] at he
  exact diffChangesLoop_invariant oldDoc newDoc _ _ (fun q hq => hq) [] (by simp) e he

/-- Witness for C7 at the concrete scenario: the single entry of the
replicas change set resolves to the non-null old value 1 and stems from
the surviving replace operation. -/
theorem changeSetEntriesHaveNonNullOld_witness :
    (∃ v, gjsonGet podX (pathToGjson "/spec/replicas") = some v ∧ v ≠ Json.null ∧
      Json.num 1 = v) ∧
    ∃ op ∈ filterPatch (jsondiffCompare podX podXr3),
      op.path = "/spec/replicas" ∧
      (op.type = "replace" ∨ (op.type = "add" ∧ op.oldValue.isSome = true)) :=
  changeSetEntriesHaveNonNullOld podX podXr3 [("/spec/replicas", Json.num 1, Json.num 3)] rfl
    ("/spec/replicas", Json.num 1, Json.num 3) (List.mem_singleton.mpr rfl)

/-- Helper: the inner loop of `filterWatchableResources` appends exactly
the allow-listed resources of one group. -/
theorem innerFoldChar (gv : GroupVersion) (rs : List APIResource)
    (acc : List GroupVersionResource) :
    rs.foldl
      (fun inner r =>
        if wantedResources.contains r.name then inner ++ [gv.withResource r.name]
        else inner) acc =
    acc ++ (rs.filter (fun r => wantedResources.contains r.name)).map
      (fun r => gv.withResource r.name) := by
  induction rs generalizing acc with
  | nil => simp
  | cons r rest ih =>
    cases hw : wantedResources.contains r.name <;>
      simp only [List.foldl_cons, List.filter_cons, hw, if_true, if_false, Bool.false_eq_true,
        Bool.true_eq_false, ite_true, ite_false, List.map_cons, List.append_assoc,
        List.singleton_append, ih]

/-- C9: the kind filter returns exactly the resources whose name is in
the fixed allow-list, for exactly the groups whose group/version string
parses; a group whose string fails to parse contributes nothing but does
not stop the remaining groups from being filtered (the result is the
concatenation over all groups, in order). -/
theorem filterWatchableCharacterization (groups : List APIResourceList) :
    filterWatchableResources groups =
      groups.flatMap (fun grp =>
        match ParseGroupVersion grp.groupVersion with
        | none => []
        | some gv =>
          (grp.apiResources.filter (fun r => wantedResources.contains r.name)).map
            (fun r => gv.withResource r.name)) := by
  unfold filterWatchableResources
  have outer : ∀ (gs : List APIResourceList) (acc : List GroupVersionResource),
      gs.foldl
        (fun acc2 grp =>
          match ParseGroupVersion grp.groupVersion with
          | none => acc2
          | some gv =>
            grp.apiResources.foldl
              (fun inner r =>
                if wantedResources.contains r.name then inner ++ [gv.withResource r.name]
                else inner) acc2) acc =
      acc ++ gs.flatMap (fun grp =>
        match ParseGroupVersion grp.groupVersion with
        | none => []
        | some gv =>
          (grp.apiResources.filter (fun r => wantedResources.contains r.name)).map
            (fun r => gv.withResource r.name)) := by
    intro gs
    induction gs with
    | nil => simp
    | cons grp rest ih =>
      intro acc
      simp only [innerFoldChar] at ih ⊢
      cases hp : ParseGroupVersion grp.groupVersion <;>
        simp only [List.foldl_cons, List.flatMap_cons, hp, ih,
          List.nil_append, List.append_assoc]
  simpa using outer groups []

end K8sAgent
